import Mathlib

/-!
# A4poster — verification of the layout and tiling engine

Shallow embedding of the A4poster core (src/App.tsx, src/types.ts) over ℚ.
All millimeter and pixel quantities are rationals; the TypeScript arithmetic
(`*`, `/`, comparisons) is modelled by exact rational arithmetic.
-/

namespace A4poster

/-- `PaperSize` from src/types.ts: `'a4' | 'a3' | 'letter'`. -/
inductive PaperSize
  | a4
  | a3
  | letter
deriving DecidableEq

/-- `Orientation` from src/types.ts: `'portrait' | 'landscape'`. -/
inductive Orientation
  | portrait
  | landscape
deriving DecidableEq

/-- Physical sheet dimensions in millimeters (catalog entry). -/
structure PaperDims where
  width : ℚ
  height : ℚ
deriving DecidableEq

/-- Modelled from the spec: `PAPER_SIZES` lives in src/constants.ts, which is
not among the provided source files.  Spec §3 fixes the catalog as an immutable
(widthMm, heightMm) per paper size with width < height in canonical portrait
form, and §8 fixes A4 = 210×297 mm; A3 and Letter carry their standard
millimeter dimensions (297×420 and 215.9×279.4). -/
def PAPER_SIZES : PaperSize → PaperDims
  | .a4 => ⟨210, 297⟩
  | .a3 => ⟨297, 420⟩
  | .letter => ⟨2159 / 10, 2794 / 10⟩

/-- `TileSettings` from src/types.ts. -/
structure TileSettings where
  rows : ℕ
  cols : ℕ
  overlapMm : ℚ
  paperSize : PaperSize
  orientation : Orientation
deriving DecidableEq

/-- `ImageMetadata` from src/types.ts. -/
structure ImageMetadata where
  width : ℚ
  height : ℚ
  aspectRatio : ℚ
  src : String
deriving DecidableEq

/-- The record returned by the `drawMetrics` memo in src/App.tsx
(the full variant, src/App.tsx lines 381–418, which carries the centering
offsets and the efficiency besides the fields common to all variants). -/
structure DrawMetrics where
  finalDrawW : ℚ
  finalDrawH : ℚ
  offsetX : ℚ
  offsetY : ℚ
  efficiency : ℚ
  pWidth : ℚ
  pHeight : ℚ
  totalPosterWidth : ℚ
  totalPosterHeight : ℚ
  posterAspect : ℚ
deriving DecidableEq

/-- Body of the `drawMetrics` memo (src/App.tsx lines 384–417) once an image
is present, parameterized by the catalog entry and the raw image dimensions. -/
def drawMetricsCore (paper : PaperDims) (o : Orientation) (rows cols : ℕ)
    (imageWidth imageHeight : ℚ) : DrawMetrics :=
  let pWidth := if o = Orientation.portrait then paper.width else paper.height
  let pHeight := if o = Orientation.portrait then paper.height else paper.width
  let totalPosterWidth := pWidth * cols
  let totalPosterHeight := pHeight * rows
  let posterAspect := totalPosterWidth / totalPosterHeight
  let imageAspect := imageWidth / imageHeight
  if imageAspect > posterAspect then
    let finalDrawW := totalPosterWidth
    let finalDrawH := totalPosterWidth / imageAspect
    let offsetX : ℚ := 0
    let offsetY := (totalPosterHeight - finalDrawH) / 2
    let efficiency := finalDrawW * finalDrawH / (totalPosterWidth * totalPosterHeight) * 100
    { finalDrawW := finalDrawW, finalDrawH := finalDrawH,
      offsetX := offsetX, offsetY := offsetY, efficiency := efficiency,
      pWidth := pWidth, pHeight := pHeight,
      totalPosterWidth := totalPosterWidth, totalPosterHeight := totalPosterHeight,
      posterAspect := posterAspect }
  else
    let finalDrawH := totalPosterHeight
    let finalDrawW := totalPosterHeight * imageAspect
    let offsetY : ℚ := 0
    let offsetX := (totalPosterWidth - finalDrawW) / 2
    let efficiency := finalDrawW * finalDrawH / (totalPosterWidth * totalPosterHeight) * 100
    { finalDrawW := finalDrawW, finalDrawH := finalDrawH,
      offsetX := offsetX, offsetY := offsetY, efficiency := efficiency,
      pWidth := pWidth, pHeight := pHeight,
      totalPosterWidth := totalPosterWidth, totalPosterHeight := totalPosterHeight,
      posterAspect := posterAspect }

/-- The `drawMetrics` memo of src/App.tsx lines 381–418: null when no image
is loaded, otherwise the computed layout record. -/
def drawMetrics (image : Option ImageMetadata) (settings : TileSettings) :
    Option DrawMetrics :=
  match image with
  | none => none
  | some img =>
      some (drawMetricsCore (PAPER_SIZES settings.paperSize) settings.orientation
        settings.rows settings.cols img.width img.height)

/-- An axis-aligned rectangle (origin x, y; size w, h). -/
structure Rect where
  x : ℚ
  y : ℚ
  w : ℚ
  h : ℚ
deriving DecidableEq

/-- Width-over-height aspect ratio of a rectangle. -/
def Rect.aspect (R : Rect) : ℚ := R.w / R.h

/-- The half-open point set `[x, x+w) × [y, y+h)` covered by a rectangle. -/
def Rect.toSet (R : Rect) : Set (ℚ × ℚ) :=
  Set.Ico R.x (R.x + R.w) ×ˢ Set.Ico R.y (R.y + R.h)

/-- Per-cell mapping computed inside the `generatePDF` loop body
(src/App.tsx lines 472–492): the source crop rectangle in pixel space and the
destination draw rectangle (with its local centering offset) in sheet-local
millimeter space. -/
structure TileMapping where
  sourceCrop : Rect
  destDraw : Rect
deriving DecidableEq

/-- The geometry of one grid cell, extracted from the `generatePDF` loop body
(src/App.tsx lines 472–492): `imgChunkW = image.width / cols`,
`imgChunkH = image.height / rows`, crop origin `(c*imgChunkW, r*imgChunkH)`,
destination size `(finalDrawW/cols, finalDrawH/rows)` placed at
`localOffset = (sheetDim - destDim) / 2` on each axis. -/
def computeTile (image : ImageMetadata) (settings : TileSettings)
    (m : DrawMetrics) (r c : ℕ) : TileMapping :=
  let imgChunkW := image.width / settings.cols
  let imgChunkH := image.height / settings.rows
  let drawW := m.finalDrawW / settings.cols
  let drawH := m.finalDrawH / settings.rows
  let localOffsetX := (m.pWidth - drawW) / 2
  let localOffsetY := (m.pHeight - drawH) / 2
  { sourceCrop := ⟨c * imgChunkW, r * imgChunkH, imgChunkW, imgChunkH⟩,
    destDraw := ⟨localOffsetX, localOffsetY, drawW, drawH⟩ }

/-- One emitted PDF page (src/App.tsx lines 467–503): page number, grid
position, tile geometry and the caption string drawn near the bottom. -/
structure PageDescriptor where
  pageNumber : ℕ
  row : ℕ
  col : ℕ
  tile : TileMapping
  caption : String
deriving DecidableEq

/-- The descriptor emitted for grid cell `(r, c)` by the `generatePDF` loop
body: page number `r*cols + c + 1` and the caption
`Página N | Linha R, Col C` of src/App.tsx line 501. -/
def pageFor (image : ImageMetadata) (settings : TileSettings)
    (m : DrawMetrics) (r c : ℕ) : PageDescriptor :=
  { pageNumber := r * settings.cols + c + 1,
    row := r, col := c,
    tile := computeTile image settings m r c,
    caption := "Página " ++ toString (r * settings.cols + c + 1) ++
      " | Linha " ++ toString (r + 1) ++ ", Col " ++ toString (c + 1) }

/-- The page sequence produced by the nested loops of `generatePDF`
(src/App.tsx lines 467–503): `r` from 0 to rows−1, inside it `c` from 0 to
cols−1, one page per iteration. -/
def generatePages (image : ImageMetadata) (settings : TileSettings)
    (m : DrawMetrics) : List PageDescriptor :=
  (List.range settings.rows).flatMap fun r =>
    (List.range settings.cols).map fun c => pageFor image settings m r c

/-- The mutable React state relevant to the engine: the loaded image, the
settings, and the `isGenerating` flag (src/App.tsx lines 365–367). -/
structure AppState where
  image : Option ImageMetadata
  settings : TileSettings
  isGenerating : Bool
deriving DecidableEq

/-- `handleFileUpload` (src/App.tsx lines 420–447) once the image has decoded:
stores the image metadata and applies the layout-advisor policy to the
settings, keeping the other settings fields. -/
def handleFileUpload (st : AppState) (imgWidth imgHeight : ℚ) (src : String) :
    AppState :=
  let aspectRatio := imgWidth / imgHeight
  let bestOrientation :=
    if aspectRatio > 1 then Orientation.landscape else Orientation.portrait
  { st with
    image := some { src := src, width := imgWidth, height := imgHeight,
                    aspectRatio := aspectRatio },
    settings := { st.settings with
      cols := if aspectRatio > 1 then 3 else 2,
      rows := if aspectRatio > 1 then 2 else 3,
      orientation := bestOrientation } }

/-- `generatePDF` (src/App.tsx lines 449–513) as a state transformer that also
returns the list of emitted pages: with no image (or no metrics) it returns at
once, emitting nothing and leaving the state untouched; otherwise it emits the
row-major page sequence and finishes with `isGenerating := false`. -/
def generatePDF (st : AppState) : AppState × List PageDescriptor :=
  match st.image, drawMetrics st.image st.settings with
  | some img, some m =>
      ({ st with isGenerating := false }, generatePages img st.settings m)
  | _, _ => (st, [])

/-- Modelled from the spec: §3 defines the derived quantity
`fillEfficiency = (drawWidth × drawHeight) / (totalPosterWidth × totalPosterHeight)`;
the code stores this quantity scaled by 100 in the `efficiency` field
(src/App.tsx line 408). -/
def fillEfficiency (m : DrawMetrics) : ℚ :=
  m.finalDrawW * m.finalDrawH / (m.totalPosterWidth * m.totalPosterHeight)



/-- Concrete settings for witness instantiations: spec §8 scenario (A4 portrait, 2×2 grid). -/
def sampleSettings : TileSettings :=
  ⟨2, 2, 0, PaperSize.a4, Orientation.portrait⟩

/-- Concrete image for witness instantiations: spec §8 scenario (1600×1200 pixels). -/
def sampleImage : ImageMetadata :=
  ⟨1600, 1200, 1600 / 1200, "sample"⟩

/-- Layout metrics of the §8 scenario (A4 portrait, 2×2 grid, 1600×1200 image). -/
def sampleMetrics : DrawMetrics :=
  drawMetricsCore (PAPER_SIZES sampleSettings.paperSize) sampleSettings.orientation
    sampleSettings.rows sampleSettings.cols sampleImage.width sampleImage.height

/-- Layout metrics of the §8 scenario with orientation flipped to landscape. -/
def sampleLandscapeMetrics : DrawMetrics :=
  drawMetricsCore (PAPER_SIZES sampleSettings.paperSize) Orientation.landscape
    sampleSettings.rows sampleSettings.cols sampleImage.width sampleImage.height

/-- Initial application state with no image loaded. -/
def sampleState : AppState :=
  ⟨none, sampleSettings, false⟩

/-- Field characterization of `drawMetricsCore`: the derived fields satisfy their
defining equations, and the draw size is given by one of the two contain-fit
branches according to the aspect comparison. -/
lemma drawMetricsFields (paper : PaperDims) (o : Orientation) (rows cols : ℕ)
    (iw ih : ℚ) (m : DrawMetrics)
    (hm : m = drawMetricsCore paper o rows cols iw ih) :
    m.pWidth = (if o = Orientation.portrait then paper.width else paper.height)
    ∧ m.pHeight = (if o = Orientation.portrait then paper.height else paper.width)
    ∧ m.totalPosterWidth = m.pWidth * cols
    ∧ m.totalPosterHeight = m.pHeight * rows
    ∧ m.posterAspect = m.totalPosterWidth / m.totalPosterHeight
    ∧ m.efficiency = m.finalDrawW * m.finalDrawH / (m.totalPosterWidth * m.totalPosterHeight) * 100
    ∧ ((m.posterAspect < iw / ih ∧ m.finalDrawW = m.totalPosterWidth
          ∧ m.finalDrawH = m.totalPosterWidth / (iw / ih))
       ∨ (iw / ih ≤ m.posterAspect ∧ m.finalDrawW = m.totalPosterHeight * (iw / ih)
          ∧ m.finalDrawH = m.totalPosterHeight)) := by
  subst hm
  simp only [drawMetricsCore]
  split_ifs with ho h1 h2
  · exact ⟨rfl, rfl, rfl, rfl, rfl, rfl, Or.inl ⟨h1, rfl, rfl⟩⟩
  · exact ⟨rfl, rfl, rfl, rfl, rfl, rfl, Or.inr ⟨not_lt.mp h1, rfl, rfl⟩⟩
  · exact ⟨rfl, rfl, rfl, rfl, rfl, rfl, Or.inl ⟨h2, rfl, rfl⟩⟩
  · exact ⟨rfl, rfl, rfl, rfl, rfl, rfl, Or.inr ⟨not_lt.mp h2, rfl, rfl⟩⟩


/-- Core geometric facts about `drawMetricsCore` on positive inputs: all
dimensions are positive, the draw rectangle preserves the image aspect ratio,
fits inside the poster rectangle and saturates at least one axis. -/
lemma drawMetricsBounds (paper : PaperDims) (o : Orientation) (rows cols : ℕ)
    (iw ih : ℚ) (hpw : 0 < paper.width) (hph : 0 < paper.height)
    (hr : 1 ≤ rows) (hc : 1 ≤ cols) (hiw : 0 < iw) (hih : 0 < ih)
    (m : DrawMetrics) (hm : m = drawMetricsCore paper o rows cols iw ih) :
    0 < m.pWidth ∧ 0 < m.pHeight
    ∧ 0 < m.totalPosterWidth ∧ 0 < m.totalPosterHeight
    ∧ 0 < m.finalDrawW ∧ 0 < m.finalDrawH
    ∧ m.finalDrawW / m.finalDrawH = iw / ih
    ∧ m.finalDrawW ≤ m.totalPosterWidth ∧ m.finalDrawH ≤ m.totalPosterHeight
    ∧ (m.finalDrawW = m.totalPosterWidth ∨ m.finalDrawH = m.totalPosterHeight) := by
  obtain ⟨hpW, hpH, hW, hH, hP, -, hbr⟩ :=
    drawMetricsFields paper o rows cols iw ih m hm
  have hA : 0 < iw / ih := div_pos hiw hih
  have hpW0 : 0 < m.pWidth := by rw [hpW]; split_ifs <;> assumption
  have hpH0 : 0 < m.pHeight := by rw [hpH]; split_ifs <;> assumption
  have hc0 : (0 : ℚ) < cols := by exact_mod_cast Nat.lt_of_lt_of_le Nat.zero_lt_one hc
  have hr0 : (0 : ℚ) < rows := by exact_mod_cast Nat.lt_of_lt_of_le Nat.zero_lt_one hr
  have hW0 : 0 < m.totalPosterWidth := by rw [hW]; exact mul_pos hpW0 hc0
  have hH0 : 0 < m.totalPosterHeight := by rw [hH]; exact mul_pos hpH0 hr0
  refine ⟨hpW0, hpH0, hW0, hH0, ?_⟩
  rcases hbr with ⟨hlt, hdW, hdH⟩ | ⟨hle, hdW, hdH⟩
  · rw [hP] at hlt
    have hWlt : m.totalPosterWidth < iw / ih * m.totalPosterHeight :=
      (div_lt_iff₀ hH0).mp hlt
    refine ⟨?_, ?_, ?_, ?_, ?_, ?_⟩
    · rw [hdW]; exact hW0
    · rw [hdH]; exact div_pos hW0 hA
    · rw [hdW, hdH, div_div_eq_mul_div, mul_comm, mul_div_assoc,
        div_self hW0.ne.symm, mul_one]
    · rw [hdW]
    · rw [hdH, div_le_iff₀ hA]
      calc m.totalPosterWidth ≤ iw / ih * m.totalPosterHeight := le_of_lt hWlt
        _ = m.totalPosterHeight * (iw / ih) := mul_comm _ _
    · exact Or.inl hdW
  · rw [hP] at hle
    have hWle : iw / ih * m.totalPosterHeight ≤ m.totalPosterWidth :=
      (le_div_iff₀ hH0).mp hle
    refine ⟨?_, ?_, ?_, ?_, ?_, ?_⟩
    · rw [hdW]; exact mul_pos hH0 hA
    · rw [hdH]; exact hH0
    · rw [hdW, hdH, mul_comm, mul_div_assoc, div_self hH0.ne.symm, mul_one]
    · rw [hdW]
      calc m.totalPosterHeight * (iw / ih) = iw / ih * m.totalPosterHeight := mul_comm _ _
        _ ≤ m.totalPosterWidth := hWle
    · rw [hdH]
    · exact Or.inr hdH


/-- The fill-efficiency ratio lies in (0, 1], equals 1 exactly at aspect
equality, and the code's `efficiency` field is this ratio scaled by 100. -/
lemma fillEfficiencyFacts (paper : PaperDims) (o : Orientation) (rows cols : ℕ)
    (iw ih : ℚ) (hpw : 0 < paper.width) (hph : 0 < paper.height)
    (hr : 1 ≤ rows) (hc : 1 ≤ cols) (hiw : 0 < iw) (hih : 0 < ih)
    (m : DrawMetrics) (hm : m = drawMetricsCore paper o rows cols iw ih) :
    0 < fillEfficiency m ∧ fillEfficiency m ≤ 1
    ∧ (fillEfficiency m = 1 ↔ iw / ih = m.totalPosterWidth / m.totalPosterHeight)
    ∧ m.efficiency = fillEfficiency m * 100 := by
  obtain ⟨-, -, -, -, hP, hE, hbr⟩ := drawMetricsFields paper o rows cols iw ih m hm
  obtain ⟨-, -, hW0, hH0, hdW0, hdH0, -, hleW, hleH, -⟩ :=
    drawMetricsBounds paper o rows cols iw ih hpw hph hr hc hiw hih m hm
  have hA : 0 < iw / ih := div_pos hiw hih
  refine ⟨div_pos (mul_pos hdW0 hdH0) (mul_pos hW0 hH0), ?_, ?_, hE⟩
  · exact div_le_one_of_le₀
      (mul_le_mul hleW hleH (le_of_lt hdH0) (le_of_lt hW0)) (le_of_lt (mul_pos hW0 hH0))
  · rcases hbr with ⟨-, hdW, hdH⟩ | ⟨-, hdW, hdH⟩
    · have hfe : fillEfficiency m = m.totalPosterWidth / (iw / ih * m.totalPosterHeight) := by
        unfold fillEfficiency
        rw [hdW, hdH]
        field_simp
        ring
      rw [hfe, div_eq_one_iff_eq (mul_pos hA hH0).ne.symm, eq_div_iff hH0.ne.symm]
      exact eq_comm
    · have hfe : fillEfficiency m = iw / ih * m.totalPosterHeight / m.totalPosterWidth := by
        unfold fillEfficiency
        rw [hdW, hdH]
        field_simp
        ring
      rw [hfe, div_eq_one_iff_eq hW0.ne.symm, eq_div_iff hH0.ne.symm]


/-- A doubly nested loop over `range m` and `range n` enumerates the same
elements as a single loop over `range (m*n)` indexed by division and modulo. -/
lemma flatMapRangeMap {α : Type} (f : ℕ → ℕ → α) (m n : ℕ) :
    ((List.range m).flatMap fun r => (List.range n).map (f r))
      = (List.range (m * n)).map fun i => f (i / n) (i % n) := by
  induction m with
  | zero => simp
  | succ m ih =>
    rw [List.range_succ, List.flatMap_append, ih, Nat.succ_mul, List.range_add,
      List.map_append, List.map_map]
    simp only [List.flatMap_cons, List.flatMap_nil, List.append_nil]
    congr 1
    apply List.map_congr_left
    intro j hj
    have hjn : j < n := List.mem_range.mp hj
    have hn0 : 0 < n := Nat.pos_of_ne_zero fun h => by omega
    simp only [Function.comp_apply]
    have h1 : (m * n + j) / n = m := by
      rw [mul_comm, Nat.mul_add_div hn0, Nat.div_eq_of_lt hjn, Nat.add_zero]
    have h2 : (m * n + j) % n = j := by
      rw [mul_comm, Nat.mul_add_mod, Nat.mod_eq_of_lt hjn]
    rw [h1, h2]

/-- The nested page loops of `generatePages` equal a single row-major
enumeration of `range (rows*cols)`. -/
lemma generatePagesEq (img : ImageMetadata) (s : TileSettings) (m : DrawMetrics) :
    generatePages img s m = (List.range (s.rows * s.cols)).map
      fun i => pageFor img s m (i / s.cols) (i % s.cols) := by
  unfold generatePages
  exact flatMapRangeMap (pageFor img s m) s.rows s.cols

/-- The row-major page-number assignment `(r, c) ↦ r*cols + c + 1` is a
bijection from the grid onto `{1, …, rows*cols}`. -/
lemma rowMajorBijOn (rows cols : ℕ) (hr : 1 ≤ rows) (hc : 1 ≤ cols) :
    Set.BijOn (fun rc : ℕ × ℕ => rc.1 * cols + rc.2 + 1)
      (Set.Iio rows ×ˢ Set.Iio cols) (Set.Icc 1 (rows * cols)) := by
  have hc0 : 0 < cols := hc
  have hdiv : ∀ a b : ℕ, b < cols → (a * cols + b) / cols = a := fun a b hb => by
    rw [mul_comm, Nat.mul_add_div hc0, Nat.div_eq_of_lt hb, Nat.add_zero]
  have hmod : ∀ a b : ℕ, b < cols → (a * cols + b) % cols = b := fun a b hb => by
    rw [mul_comm, Nat.mul_add_mod, Nat.mod_eq_of_lt hb]
  refine ⟨?_, ?_, ?_⟩
  · rintro ⟨r, c⟩ ⟨hrlt, hclt⟩
    simp only [Set.mem_Iio] at hrlt hclt
    simp only [Set.mem_Icc]
    refine ⟨Nat.succ_le_succ (Nat.zero_le _), ?_⟩
    calc r * cols + c + 1 = r * cols + (c + 1) := Nat.add_assoc _ _ _
      _ ≤ r * cols + cols := Nat.add_le_add_left hclt _
      _ = (r + 1) * cols := (Nat.succ_mul r cols).symm
      _ ≤ rows * cols := Nat.mul_le_mul_right _ hrlt
  · rintro ⟨r, c⟩ ⟨hr1, hc1⟩ ⟨r2, c2⟩ ⟨hr2, hc2⟩ heq
    simp only [Set.mem_Iio] at hr1 hc1 hr2 hc2
    simp only [Nat.add_right_cancel_iff] at heq
    have hrr : r = r2 := by
      have h := congrArg (· / cols) heq
      simpa [hdiv r c hc1, hdiv r2 c2 hc2] using h
    have hcc : c = c2 := by
      have h := congrArg (· % cols) heq
      simpa [hmod r c hc1, hmod r2 c2 hc2] using h
    simp [hrr, hcc]
  · rintro k hk
    simp only [Set.mem_Icc] at hk
    obtain ⟨hk1, hk2⟩ := hk
    refine ⟨((k - 1) / cols, (k - 1) % cols), ⟨?_, ?_⟩, ?_⟩
    · simp only [Set.mem_Iio]
      rw [Nat.div_lt_iff_lt_mul hc0]
      exact Nat.lt_of_lt_of_le (Nat.sub_lt hk1 Nat.one_pos) hk2
    · simp only [Set.mem_Iio]
      exact Nat.mod_lt _ hc0
    · have h := Nat.div_add_mod (k - 1) cols
      calc (k - 1) / cols * cols + (k - 1) % cols + 1
          = cols * ((k - 1) / cols) + (k - 1) % cols + 1 := by rw [mul_comm]
        _ = (k - 1) + 1 := by rw [h]
        _ = k := Nat.succ_pred_eq_of_pos hk1


/-- Cutting `[0, W)` into `n` half-open chunks of width `W/n` covers exactly
`[0, W)`. -/
lemma unionIcoChunks (n : ℕ) (hn : 1 ≤ n) (W : ℚ) (hW : 0 < W) :
    (⋃ c : Fin n, Set.Ico ((c : ℚ) * (W / n)) ((c : ℚ) * (W / n) + W / n))
      = Set.Ico 0 W := by
  have hn0 : (0 : ℚ) < n := by exact_mod_cast hn
  have hw0 : 0 < W / n := div_pos hW hn0
  have hnW : (n : ℚ) * (W / n) = W := by field_simp
  ext p
  simp only [Set.mem_iUnion, Set.mem_Ico]
  constructor
  · rintro ⟨c, h1, h2⟩
    have hcn : (c : ℚ) + 1 ≤ n := by exact_mod_cast c.2
    refine ⟨le_trans (by positivity) h1, ?_⟩
    calc p < (c : ℚ) * (W / n) + W / n := h2
      _ = ((c : ℚ) + 1) * (W / n) := by ring
      _ ≤ n * (W / n) := mul_le_mul_of_nonneg_right hcn (le_of_lt hw0)
      _ = W := hnW
  · rintro ⟨h0, hp⟩
    have hfl : (0 : ℤ) ≤ ⌊p / (W / n)⌋ :=
      Int.floor_nonneg.mpr (div_nonneg h0 (le_of_lt hw0))
    have hflt : ⌊p / (W / n)⌋ < (n : ℤ) := by
      apply Int.floor_lt.mpr
      push_cast
      rw [div_lt_iff₀ hw0]
      rw [hnW]
      exact hp
    have hcn : (⌊p / (W / n)⌋).toNat < n := by omega
    have hcast : (((⌊p / (W / n)⌋).toNat : ℕ) : ℚ) = ((⌊p / (W / n)⌋ : ℤ) : ℚ) := by
      exact_mod_cast congrArg (fun z : ℤ => (z : ℚ)) (Int.toNat_of_nonneg hfl)
    refine ⟨⟨(⌊p / (W / n)⌋).toNat, hcn⟩, ?_, ?_⟩
    · show ((⌊p / (W / n)⌋).toNat : ℚ) * (W / n) ≤ p
      rw [hcast]
      exact (le_div_iff₀ hw0).mp (Int.floor_le _)
    · show p < ((⌊p / (W / n)⌋).toNat : ℚ) * (W / n) + W / n
      rw [hcast]
      have h1 : p / (W / n) < (⌊p / (W / n)⌋ : ℚ) + 1 := Int.lt_floor_add_one _
      calc p = p / (W / n) * (W / n) := by field_simp
        _ < ((⌊p / (W / n)⌋ : ℚ) + 1) * (W / n) :=
            mul_lt_mul_of_pos_right h1 hw0
        _ = (⌊p / (W / n)⌋ : ℚ) * (W / n) + W / n := by ring

/-- Distinct chunks of a uniform half-open subdivision are disjoint. -/
lemma disjointIcoChunks (w0 : ℚ) (hw0 : 0 ≤ w0) (c c2 : ℕ) (h : c ≠ c2) :
    Disjoint (Set.Ico ((c : ℚ) * w0) ((c : ℚ) * w0 + w0))
      (Set.Ico ((c2 : ℚ) * w0) ((c2 : ℚ) * w0 + w0)) := by
  rw [Set.Ico_disjoint_Ico]
  rcases Nat.lt_or_ge c c2 with hlt | hge
  · have h1 : (c : ℚ) + 1 ≤ c2 := by exact_mod_cast hlt
    refine le_trans (min_le_left _ _) (le_trans ?_ (le_max_right _ _))
    calc (c : ℚ) * w0 + w0 = ((c : ℚ) + 1) * w0 := by ring
      _ ≤ (c2 : ℚ) * w0 := mul_le_mul_of_nonneg_right h1 hw0
  · have hlt2 : c2 < c := lt_of_le_of_ne hge (Ne.symm h)
    have h1 : (c2 : ℚ) + 1 ≤ c := by exact_mod_cast hlt2
    refine le_trans (min_le_right _ _) (le_trans ?_ (le_max_left _ _))
    calc (c2 : ℚ) * w0 + w0 = ((c2 : ℚ) + 1) * w0 := by ring
      _ ≤ (c : ℚ) * w0 := mul_le_mul_of_nonneg_right h1 hw0


/-- C3 (partition property): for rows ≥ 1, cols ≥ 1 and positive pixel
dimensions, the rows×cols source crop rectangles — each exactly
`pixelWidth/cols` wide and `pixelHeight/rows` tall (fractional, never rounded)
with origin `(col·cropW, row·cropH)` — tile `[0, pixelWidth) × [0, pixelHeight)`
with no gaps and no overlaps. -/
theorem sourceCrop_partition (img : ImageMetadata) (s : TileSettings) (m : DrawMetrics)
    (hr : 1 ≤ s.rows) (hc : 1 ≤ s.cols) (hw : 0 < img.width) (hh : 0 < img.height) :
    (∀ r c : ℕ, (computeTile img s m r c).sourceCrop =
        ⟨c * (img.width / s.cols), r * (img.height / s.rows),
         img.width / s.cols, img.height / s.rows⟩)
    ∧ (⋃ (r : Fin s.rows) (c : Fin s.cols),
        ((computeTile img s m r c).sourceCrop).toSet)
        = Set.Ico 0 img.width ×ˢ Set.Ico 0 img.height
    ∧ ∀ r c r2 c2 : ℕ, r < s.rows → c < s.cols → r2 < s.rows → c2 < s.cols →
        (r, c) ≠ (r2, c2) →
        Disjoint ((computeTile img s m r c).sourceCrop).toSet
          ((computeTile img s m r2 c2).sourceCrop).toSet := by
  have hx0 : (0 : ℚ) ≤ img.width / s.cols :=
    div_nonneg (le_of_lt hw) (Nat.cast_nonneg _)
  have hy0 : (0 : ℚ) ≤ img.height / s.rows :=
    div_nonneg (le_of_lt hh) (Nat.cast_nonneg _)
  refine ⟨fun r c => rfl, ?_, ?_⟩
  · have hsplit : (⋃ (r : Fin s.rows) (c : Fin s.cols),
        ((computeTile img s m r c).sourceCrop).toSet)
        = (⋃ c : Fin s.cols, Set.Ico ((c : ℚ) * (img.width / s.cols))
              ((c : ℚ) * (img.width / s.cols) + img.width / s.cols))
          ×ˢ (⋃ r : Fin s.rows, Set.Ico ((r : ℚ) * (img.height / s.rows))
              ((r : ℚ) * (img.height / s.rows) + img.height / s.rows)) := by
      ext pq
      simp only [computeTile, Rect.toSet, Set.mem_iUnion, Set.mem_prod]
      tauto
    rw [hsplit, unionIcoChunks s.cols hc img.width hw,
      unionIcoChunks s.rows hr img.height hh]
  · intro r c r2 c2 hrlt hclt hr2lt hc2lt hne
    have hne2 : r ≠ r2 ∨ c ≠ c2 := by
      by_contra hcon
      push_neg at hcon
      exact hne (by rw [hcon.1, hcon.2])
    rw [Set.disjoint_left]
    rintro ⟨p, q⟩ h1 h2
    simp only [computeTile, Rect.toSet, Set.mem_prod] at h1 h2
    rcases hne2 with hd | hd
    · exact (Set.disjoint_left.mp
        (disjointIcoChunks (img.height / s.rows) hy0 r r2 hd) h1.2) h2.2
    · exact (Set.disjoint_left.mp
        (disjointIcoChunks (img.width / s.cols) hx0 c c2 hd) h1.1) h2.1


/-- Every catalog entry has positive width and height. -/
lemma paperSizesPos (ps : PaperSize) :
    0 < (PAPER_SIZES ps).width ∧ 0 < (PAPER_SIZES ps).height := by
  cases ps <;> norm_num [PAPER_SIZES]

/-- C1 (contain-fit correctness): for every positive sheet width and height,
rows ≥ 1, cols ≥ 1 and positive image dimensions, the computed draw size
satisfies `drawWidth/drawHeight = imageAspectRatio`,
`drawWidth ≤ totalPosterWidth`, `drawHeight ≤ totalPosterHeight`, at least one
axis is saturated, and the poster dimensions are `effectiveSheetWidth × cols`
and `effectiveSheetHeight × rows`. -/
theorem contain_fit_correct (paper : PaperDims) (o : Orientation) (rows cols : ℕ)
    (imageWidth imageHeight : ℚ) (hpw : 0 < paper.width) (hph : 0 < paper.height)
    (hrows : 1 ≤ rows) (hcols : 1 ≤ cols)
    (hiw : 0 < imageWidth) (hih : 0 < imageHeight)
    (m : DrawMetrics)
    (hm : m = drawMetricsCore paper o rows cols imageWidth imageHeight) :
    m.finalDrawW / m.finalDrawH = imageWidth / imageHeight
    ∧ m.finalDrawW ≤ m.totalPosterWidth
    ∧ m.finalDrawH ≤ m.totalPosterHeight
    ∧ (m.finalDrawW = m.totalPosterWidth ∨ m.finalDrawH = m.totalPosterHeight)
    ∧ m.totalPosterWidth = m.pWidth * cols
    ∧ m.totalPosterHeight = m.pHeight * rows := by
  obtain ⟨-, -, hW, hH, -, -, -⟩ :=
    drawMetricsFields paper o rows cols imageWidth imageHeight m hm
  obtain ⟨-, -, -, -, -, -, hratio, hleW, hleH, hsat⟩ :=
    drawMetricsBounds paper o rows cols imageWidth imageHeight
      hpw hph hrows hcols hiw hih m hm
  exact ⟨hratio, hleW, hleH, hsat, hW, hH⟩

/-- C2 (per-tile aspect invariant): for every grid cell, the aspect ratio of
the source crop rectangle equals the aspect ratio of the destination draw
rectangle, and both equal the global image aspect ratio scaled by the
`rows/cols` factor. -/
theorem tile_aspect_invariant (img : ImageMetadata) (s : TileSettings) (m : DrawMetrics)
    (hm : drawMetrics (some img) s = some m)
    (hw : 0 < img.width) (hh : 0 < img.height)
    (hr : 1 ≤ s.rows) (hc : 1 ≤ s.cols)
    (r c : ℕ) (hrlt : r < s.rows) (hclt : c < s.cols) :
    ((computeTile img s m r c).sourceCrop).aspect
      = ((computeTile img s m r c).destDraw).aspect
    ∧ ((computeTile img s m r c).sourceCrop).aspect
      = img.width / img.height * (s.rows / s.cols) := by
  have hm2 : m = drawMetricsCore (PAPER_SIZES s.paperSize) s.orientation
      s.rows s.cols img.width img.height := by
    simp only [drawMetrics, Option.some.injEq] at hm
    exact hm.symm
  obtain ⟨hpw, hph⟩ := paperSizesPos s.paperSize
  obtain ⟨-, -, -, -, hdW0, hdH0, hratio, -, -, -⟩ :=
    drawMetricsBounds (PAPER_SIZES s.paperSize) s.orientation s.rows s.cols
      img.width img.height hpw hph hr hc hw hh m hm2
  have hihne : img.height ≠ 0 := hh.ne.symm
  have hrne : ((s.rows : ℚ)) ≠ 0 := by
    have : (0 : ℚ) < s.rows := by exact_mod_cast Nat.lt_of_lt_of_le Nat.zero_lt_one hr
    exact this.ne.symm
  have hcne : ((s.cols : ℚ)) ≠ 0 := by
    have : (0 : ℚ) < s.cols := by exact_mod_cast Nat.lt_of_lt_of_le Nat.zero_lt_one hc
    exact this.ne.symm
  have hdHne : m.finalDrawH ≠ 0 := hdH0.ne.symm
  have hsrc : ((computeTile img s m r c).sourceCrop).aspect
      = img.width / img.height * (s.rows / s.cols) := by
    simp only [computeTile, Rect.aspect]
    field_simp
    ring
  refine ⟨?_, hsrc⟩
  have hdst : ((computeTile img s m r c).destDraw).aspect
      = m.finalDrawW / m.finalDrawH * (s.rows / s.cols) := by
    simp only [computeTile, Rect.aspect]
    field_simp
    ring
  rw [hsrc, hdst, hratio]

/-- C4 (fill efficiency): `fillEfficiency` equals
`drawWidth·drawHeight / (totalPosterWidth·totalPosterHeight)`, lies in (0, 1],
equals 1 exactly when the image aspect ratio equals the poster aspect ratio,
and the code's `efficiency` field is `fillEfficiency × 100`. -/
theorem fillEfficiency_correct (paper : PaperDims) (o : Orientation) (rows cols : ℕ)
    (imageWidth imageHeight : ℚ) (hpw : 0 < paper.width) (hph : 0 < paper.height)
    (hrows : 1 ≤ rows) (hcols : 1 ≤ cols)
    (hiw : 0 < imageWidth) (hih : 0 < imageHeight)
    (m : DrawMetrics)
    (hm : m = drawMetricsCore paper o rows cols imageWidth imageHeight) :
    fillEfficiency m
      = m.finalDrawW * m.finalDrawH / (m.totalPosterWidth * m.totalPosterHeight)
    ∧ 0 < fillEfficiency m ∧ fillEfficiency m ≤ 1
    ∧ (fillEfficiency m = 1 ↔
        imageWidth / imageHeight = m.totalPosterWidth / m.totalPosterHeight)
    ∧ m.efficiency = fillEfficiency m * 100 := by
  obtain ⟨h1, h2, h3, h4⟩ :=
    fillEfficiencyFacts paper o rows cols imageWidth imageHeight
      hpw hph hrows hcols hiw hih m hm
  exact ⟨rfl, h1, h2, h3, h4⟩


/-- C5 (page sequencing): pages are emitted in row-major order — the i-th
emitted page has page number i+1, row `i / cols` and column `i % cols` — every
page carries page number `row·cols + col + 1` and the caption with that number
and 1-based row/column labels, the emitted page numbers are exactly
`1, …, rows·cols` in increasing order, and the page-number assignment is a
bijection from the grid onto `{1, …, rows·cols}`. -/
theorem page_sequencing (img : ImageMetadata) (s : TileSettings) (m : DrawMetrics)
    (hr : 1 ≤ s.rows) (hc : 1 ≤ s.cols) :
    (generatePages img s m).length = s.rows * s.cols
    ∧ (∀ i : ℕ, ∀ h : i < (generatePages img s m).length,
        ((generatePages img s m).get ⟨i, h⟩).pageNumber = i + 1
        ∧ ((generatePages img s m).get ⟨i, h⟩).row = i / s.cols
        ∧ ((generatePages img s m).get ⟨i, h⟩).col = i % s.cols)
    ∧ (∀ p ∈ generatePages img s m,
        p.pageNumber = p.row * s.cols + p.col + 1
        ∧ p.row < s.rows ∧ p.col < s.cols
        ∧ p.caption = "Página " ++ toString p.pageNumber ++ " | Linha " ++
            toString (p.row + 1) ++ ", Col " ++ toString (p.col + 1))
    ∧ (generatePages img s m).map PageDescriptor.pageNumber
        = (List.range (s.rows * s.cols)).map (· + 1)
    ∧ Set.BijOn (fun rc : ℕ × ℕ => rc.1 * s.cols + rc.2 + 1)
        (Set.Iio s.rows ×ˢ Set.Iio s.cols) (Set.Icc 1 (s.rows * s.cols)) := by
  have hc0 : 0 < s.cols := hc
  have heq := generatePagesEq img s m
  have hlen : (generatePages img s m).length = s.rows * s.cols := by
    rw [heq, List.length_map, List.length_range]
  have hpagenum : ∀ i : ℕ, i / s.cols * s.cols + i % s.cols + 1 = i + 1 := fun i => by
    rw [mul_comm, Nat.div_add_mod]
  have hget : ∀ (i : ℕ) (h : i < (generatePages img s m).length),
      (generatePages img s m).get ⟨i, h⟩
        = pageFor img s m (i / s.cols) (i % s.cols) := by
    intro i h
    have h2 : i < s.rows * s.cols := hlen ▸ h
    rw [List.get_eq_getElem]
    simp only [heq, List.getElem_map, List.getElem_range]
  refine ⟨hlen, ?_, ?_, ?_, rowMajorBijOn s.rows s.cols hr hc⟩
  · intro i h
    rw [hget i h]
    exact ⟨hpagenum i, rfl, rfl⟩
  · intro p hp
    rw [heq] at hp
    obtain ⟨i, hi, rfl⟩ := List.mem_map.mp hp
    have hilt : i < s.rows * s.cols := List.mem_range.mp hi
    refine ⟨rfl, ?_, Nat.mod_lt _ hc0, rfl⟩
    exact (Nat.div_lt_iff_lt_mul hc0).mpr hilt
  · rw [heq, List.map_map]
    apply List.map_congr_left
    intro i hi
    exact hpagenum i

/-- C6 (orientation swap): with paperSize, rows and cols fixed, portrait takes
the catalog (width, height) as-is, landscape takes (height, width) — so
toggling orientation swaps the effective sheet dimensions exactly — and the
page count `rows·cols` is unchanged. -/
theorem orientation_swap (img : ImageMetadata) (s : TileSettings)
    (mp ml : DrawMetrics)
    (hp : drawMetrics (some img) { s with orientation := Orientation.portrait } = some mp)
    (hl : drawMetrics (some img) { s with orientation := Orientation.landscape } = some ml) :
    mp.pWidth = (PAPER_SIZES s.paperSize).width
    ∧ mp.pHeight = (PAPER_SIZES s.paperSize).height
    ∧ ml.pWidth = (PAPER_SIZES s.paperSize).height
    ∧ ml.pHeight = (PAPER_SIZES s.paperSize).width
    ∧ ml.pWidth = mp.pHeight ∧ ml.pHeight = mp.pWidth
    ∧ (generatePages img { s with orientation := Orientation.landscape } ml).length
        = (generatePages img { s with orientation := Orientation.portrait } mp).length
    ∧ (generatePages img { s with orientation := Orientation.portrait } mp).length
        = s.rows * s.cols := by
  simp only [drawMetrics, Option.some.injEq] at hp hl
  obtain ⟨hpw, hph, -, -, -, -, -⟩ := drawMetricsFields _ _ _ _ _ _ mp hp.symm
  obtain ⟨hlw, hlh, -, -, -, -, -⟩ := drawMetricsFields _ _ _ _ _ _ ml hl.symm
  have hpw2 : mp.pWidth = (PAPER_SIZES s.paperSize).width := hpw.trans rfl
  have hph2 : mp.pHeight = (PAPER_SIZES s.paperSize).height := hph.trans rfl
  have hlw2 : ml.pWidth = (PAPER_SIZES s.paperSize).height := hlw.trans rfl
  have hlh2 : ml.pHeight = (PAPER_SIZES s.paperSize).width := hlh.trans rfl
  have hlen : ∀ (s2 : TileSettings) (m2 : DrawMetrics),
      (generatePages img s2 m2).length = s2.rows * s2.cols := fun s2 m2 => by
    rw [generatePagesEq, List.length_map, List.length_range]
  refine ⟨hpw2, hph2, hlw2, hlh2, ?_, ?_, ?_, ?_⟩
  · rw [hlw2, hph2]
  · rw [hlh2, hpw2]
  · exact (hlen _ _).trans (hlen _ _).symm
  · exact hlen _ _

/-- C7 (overlap noninterference): two settings that differ only in `overlapMm`
produce identical layout metrics, identical per-tile crop/destination
rectangles and offsets, and identical page sequences (numbers and captions):
no computation consumes `overlapMm`. -/
theorem overlap_noninterference (img : Option ImageMetadata) (s1 s2 : TileSettings)
    (hrows : s1.rows = s2.rows) (hcols : s1.cols = s2.cols)
    (hpaper : s1.paperSize = s2.paperSize) (hor : s1.orientation = s2.orientation) :
    drawMetrics img s1 = drawMetrics img s2
    ∧ ∀ (i : ImageMetadata) (m : DrawMetrics),
        computeTile i s1 m = computeTile i s2 m
        ∧ generatePages i s1 m = generatePages i s2 m := by
  obtain ⟨r1, c1, o1, p1, or1⟩ := s1
  obtain ⟨r2, c2, o2, p2, or2⟩ := s2
  simp only at hrows hcols hpaper hor
  subst hrows
  subst hcols
  subst hpaper
  subst hor
  exact ⟨rfl, fun i m => ⟨rfl, rfl⟩⟩


/-- C8 (layout advisor policy): on image load with positive aspect ratio, if
the aspect ratio exceeds 1 the suggested grid is cols = 3, rows = 2 with
landscape orientation; otherwise cols = 2, rows = 3 with portrait. -/
theorem layout_advisor_policy (st : AppState) (imgWidth imgHeight : ℚ) (src : String)
    (ha : 0 < imgWidth / imgHeight) :
    (1 < imgWidth / imgHeight →
      (handleFileUpload st imgWidth imgHeight src).settings.cols = 3
      ∧ (handleFileUpload st imgWidth imgHeight src).settings.rows = 2
      ∧ (handleFileUpload st imgWidth imgHeight src).settings.orientation
          = Orientation.landscape)
    ∧ (imgWidth / imgHeight ≤ 1 →
      (handleFileUpload st imgWidth imgHeight src).settings.cols = 2
      ∧ (handleFileUpload st imgWidth imgHeight src).settings.rows = 3
      ∧ (handleFileUpload st imgWidth imgHeight src).settings.orientation
          = Orientation.portrait) := by
  constructor
  · intro h
    simp [handleFileUpload, if_pos h]
  · intro h
    simp [handleFileUpload, if_neg (not_lt.mpr h)]

/-- C9 (frame effect of image load): `handleFileUpload` leaves the
`paperSize` and `overlapMm` settings fields (and the `isGenerating` flag)
unchanged; only rows, cols and orientation are rewritten by the advisor. -/
theorem upload_keeps_other_settings (st : AppState) (imgWidth imgHeight : ℚ)
    (src : String) :
    (handleFileUpload st imgWidth imgHeight src).settings.paperSize
      = st.settings.paperSize
    ∧ (handleFileUpload st imgWidth imgHeight src).settings.overlapMm
      = st.settings.overlapMm
    ∧ (handleFileUpload st imgWidth imgHeight src).isGenerating = st.isGenerating :=
  ⟨rfl, rfl, rfl⟩

/-- C10 counterexample: with an image of width 0 present, the layout metrics
are non-null, so layout outputs do not exist "only when an image with positive
dimensions is present" — presence of an image suffices, positivity of its
dimensions is not checked. -/
theorem layout_exists_without_positive_dims :
    (drawMetrics (some (ImageMetadata.mk 0 1 0 "img"))
        (TileSettings.mk 2 2 0 PaperSize.a4 Orientation.portrait)).isSome = true
    ∧ ¬ (0 < (ImageMetadata.mk 0 1 0 "img").width) :=
  ⟨rfl, by norm_num⟩

/-- C10 (amended): when no image is loaded the derived layout metrics are
null and PDF generation returns immediately, emitting no page and leaving the
state unchanged; layout metrics exist exactly when an image is present
(whether or not its dimensions are positive). -/
theorem no_image_no_output (st : AppState) :
    (st.image = none →
      drawMetrics st.image st.settings = none ∧ generatePDF st = (st, []))
    ∧ ∀ (img : ImageMetadata) (s : TileSettings),
        (drawMetrics (some img) s).isSome = true := by
  constructor
  · intro h
    refine ⟨by rw [h]; rfl, ?_⟩
    unfold generatePDF
    rw [h]
  · intro img s
    rfl

/-- Witness for C1 at the §8 scenario (A4 portrait, 2×2, 1600×1200). -/
theorem contain_fit_correct_witness :
    sampleMetrics.finalDrawW / sampleMetrics.finalDrawH = (1600 : ℚ) / 1200
    ∧ sampleMetrics.finalDrawW ≤ sampleMetrics.totalPosterWidth
    ∧ sampleMetrics.finalDrawH ≤ sampleMetrics.totalPosterHeight
    ∧ (sampleMetrics.finalDrawW = sampleMetrics.totalPosterWidth
        ∨ sampleMetrics.finalDrawH = sampleMetrics.totalPosterHeight)
    ∧ sampleMetrics.totalPosterWidth = sampleMetrics.pWidth * (2 : ℕ)
    ∧ sampleMetrics.totalPosterHeight = sampleMetrics.pHeight * (2 : ℕ) :=
  contain_fit_correct (PAPER_SIZES PaperSize.a4) Orientation.portrait 2 2 1600 1200
    (by norm_num [PAPER_SIZES]) (by norm_num [PAPER_SIZES])
    (by norm_num) (by norm_num) (by norm_num) (by norm_num)
    sampleMetrics rfl

/-- Witness for C2 at the §8 scenario, cell (0, 1). -/
theorem tile_aspect_invariant_witness :
    ((computeTile sampleImage sampleSettings sampleMetrics 0 1).sourceCrop).aspect
      = ((computeTile sampleImage sampleSettings sampleMetrics 0 1).destDraw).aspect
    ∧ ((computeTile sampleImage sampleSettings sampleMetrics 0 1).sourceCrop).aspect
      = sampleImage.width / sampleImage.height
          * (sampleSettings.rows / sampleSettings.cols) :=
  tile_aspect_invariant sampleImage sampleSettings sampleMetrics rfl
    (by norm_num [sampleImage]) (by norm_num [sampleImage])
    (by norm_num [sampleSettings]) (by norm_num [sampleSettings])
    0 1 (by norm_num [sampleSettings]) (by norm_num [sampleSettings])

/-- Witness for C3 at the §8 scenario: the four crops tile the image. -/
theorem sourceCrop_partition_witness :
    (⋃ (r : Fin sampleSettings.rows) (c : Fin sampleSettings.cols),
        ((computeTile sampleImage sampleSettings sampleMetrics r c).sourceCrop).toSet)
      = Set.Ico 0 sampleImage.width ×ˢ Set.Ico 0 sampleImage.height :=
  (sourceCrop_partition sampleImage sampleSettings sampleMetrics
    (by norm_num [sampleSettings]) (by norm_num [sampleSettings])
    (by norm_num [sampleImage]) (by norm_num [sampleImage])).2.1

/-- Witness for C4 at the §8 scenario. -/
theorem fillEfficiency_correct_witness :
    fillEfficiency sampleMetrics = sampleMetrics.finalDrawW * sampleMetrics.finalDrawH
        / (sampleMetrics.totalPosterWidth * sampleMetrics.totalPosterHeight)
    ∧ 0 < fillEfficiency sampleMetrics ∧ fillEfficiency sampleMetrics ≤ 1
    ∧ (fillEfficiency sampleMetrics = 1 ↔
        (1600 : ℚ) / 1200
          = sampleMetrics.totalPosterWidth / sampleMetrics.totalPosterHeight)
    ∧ sampleMetrics.efficiency = fillEfficiency sampleMetrics * 100 :=
  fillEfficiency_correct (PAPER_SIZES PaperSize.a4) Orientation.portrait 2 2 1600 1200
    (by norm_num [PAPER_SIZES]) (by norm_num [PAPER_SIZES])
    (by norm_num) (by norm_num) (by norm_num) (by norm_num)
    sampleMetrics rfl

/-- Witness for C5 at the §8 scenario: 4 pages numbered 1–4. -/
theorem page_sequencing_witness :
    (generatePages sampleImage sampleSettings sampleMetrics).length = 4
    ∧ (generatePages sampleImage sampleSettings sampleMetrics).map
        PageDescriptor.pageNumber = [1, 2, 3, 4] :=
  ⟨(page_sequencing sampleImage sampleSettings sampleMetrics
      (by norm_num [sampleSettings]) (by norm_num [sampleSettings])).1,
   ((page_sequencing sampleImage sampleSettings sampleMetrics
      (by norm_num [sampleSettings]) (by norm_num [sampleSettings])).2.2.2.1).trans
     (by rfl)⟩

/-- Witness for C6 at the §8 scenario. -/
theorem orientation_swap_witness :
    sampleMetrics.pWidth = (PAPER_SIZES sampleSettings.paperSize).width
    ∧ sampleMetrics.pHeight = (PAPER_SIZES sampleSettings.paperSize).height
    ∧ sampleLandscapeMetrics.pWidth = (PAPER_SIZES sampleSettings.paperSize).height
    ∧ sampleLandscapeMetrics.pHeight = (PAPER_SIZES sampleSettings.paperSize).width
    ∧ sampleLandscapeMetrics.pWidth = sampleMetrics.pHeight
    ∧ sampleLandscapeMetrics.pHeight = sampleMetrics.pWidth
    ∧ (generatePages sampleImage
        { sampleSettings with orientation := Orientation.landscape }
        sampleLandscapeMetrics).length
      = (generatePages sampleImage
          { sampleSettings with orientation := Orientation.portrait }
          sampleMetrics).length
    ∧ (generatePages sampleImage
        { sampleSettings with orientation := Orientation.portrait }
        sampleMetrics).length = sampleSettings.rows * sampleSettings.cols :=
  orientation_swap sampleImage sampleSettings sampleMetrics sampleLandscapeMetrics
    rfl rfl

/-- Witness for C7: settings differing only in overlap (0 mm vs 5 mm). -/
theorem overlap_noninterference_witness :
    drawMetrics (some sampleImage) (TileSettings.mk 3 3 0 PaperSize.a4 Orientation.portrait)
      = drawMetrics (some sampleImage)
        (TileSettings.mk 3 3 5 PaperSize.a4 Orientation.portrait) :=
  (overlap_noninterference (some sampleImage)
    (TileSettings.mk 3 3 0 PaperSize.a4 Orientation.portrait)
    (TileSettings.mk 3 3 5 PaperSize.a4 Orientation.portrait)
    rfl rfl rfl rfl).1

/-- Witness for C8: a 1600×1200 upload suggests a 2×3 landscape grid. -/
theorem layout_advisor_policy_witness :
    (handleFileUpload sampleState 1600 1200 "img").settings.cols = 3
    ∧ (handleFileUpload sampleState 1600 1200 "img").settings.rows = 2
    ∧ (handleFileUpload sampleState 1600 1200 "img").settings.orientation
        = Orientation.landscape :=
  (layout_advisor_policy sampleState 1600 1200 "img" (by norm_num)).1 (by norm_num)

/-- Witness for the amended C10 at the empty initial state. -/
theorem no_image_no_output_witness :
    drawMetrics sampleState.image sampleState.settings = none
    ∧ generatePDF sampleState = (sampleState, []) :=
  (no_image_no_output sampleState).1 rfl

end A4poster
